import Mathlib

/-!
Verification of the Hestia background thumbnail generation pipeline.

The development shallowly embeds the pipeline described in the repository:
the `ThumbnailProcessor` run loop (documented with its source in
`src/unnamed/part_001`, lines 404-465, excerpted from
`app/src-tauri/src/file_system/thumbnail_processor.rs`), together with the
job queue, worker retry logic and statistics aggregation.  The worker and
queue internals are not present in the repository, so those definitions are
modelled from the specification, as indicated in their doc comments.
-/

namespace Hestia

/-- Thumbnail size classes (`ThumbnailSize` enum with fixed dimensions). -/
inductive ThumbnailSize
| small
| medium
| large
deriving DecidableEq, Repr

/-- Job status tracking: `Pending`, `Processing`, `Completed`, `Failed`. -/
inductive JobStatus
| pending
| processing
| completed
| failed
deriving DecidableEq, Repr

/-- `ThumbnailJob` struct with file metadata, retry count, and timestamps. -/
structure ThumbnailJob where
  file_id : Nat
  file_path : String
  target_size : ThumbnailSize
  status : JobStatus
  retry_count : Nat
  enqueued_at : Nat
deriving DecidableEq, Repr

/-- Modelled from the spec: the missing queue implementation behind
`job_queue : Arc<Mutex<Vec<ThumbnailJob>>>`.  `enqueue(job)` appends to the
back of the pending buffer. -/
def enqueue (q : List ThumbnailJob) (j : ThumbnailJob) : List ThumbnailJob :=
  q ++ [j]

/-- Modelled from the spec: the missing queue implementation behind
`job_queue`.  `dequeue()` removes and returns the front job, or none if the
queue is empty; the surrounding mutex makes each call atomic. -/
def dequeue (q : List ThumbnailJob) : Option (ThumbnailJob × List ThumbnailJob) :=
  match q with
  | [] => none
  | j :: rest => some (j, rest)

/-- A sequence of `enqueue` operations with no interleaved dequeues. -/
def enqueueAll (q : List ThumbnailJob) (js : List ThumbnailJob) : List ThumbnailJob :=
  js.foldl enqueue q

/-- Up to `fuel` successive `dequeue` calls, collecting the returned jobs in
order and stopping at the first empty result. -/
def drainFuel : Nat → List ThumbnailJob → List ThumbnailJob
  | 0, _ => []
  | fuel + 1, q =>
    match dequeue q with
    | none => []
    | some (j, rest) => j :: drainFuel fuel rest

/-- Successive `dequeue` calls until the queue is empty, collecting the
returned jobs in order. -/
def drain (q : List ThumbnailJob) : List ThumbnailJob :=
  drainFuel q.length q

/-- Modelled from the spec: the missing concurrent-dispatch behaviour of the
mutex-guarded queue.  Each worker's `dequeue` call is atomic, so any
concurrent execution is an interleaving: `ws` lists the workers in the order
their atomic dequeues take effect, and each worker receives the front job at
its turn (or none on an empty queue). -/
def dispatchAll : List Nat → List ThumbnailJob → List (Nat × Option ThumbnailJob)
  | [], _ => []
  | w :: ws, q =>
    match dequeue q with
    | none => (w, none) :: dispatchAll ws []
    | some (j, rest) => (w, some j) :: dispatchAll ws rest

theorem drainFuel_eq_self (q : List ThumbnailJob) (fuel : Nat)
    (h : q.length ≤ fuel) : drainFuel fuel q = q := by
  induction fuel generalizing q with
  | zero =>
    have hq : q = [] := List.length_eq_zero.mp (Nat.le_zero.mp h)
    subst hq; rfl
  | succ fuel ih =>
    cases q with
    | nil => rfl
    | cons j rest =>
      have hr : rest.length ≤ fuel := by
        simpa [List.length_cons, Nat.succ_le_succ_iff] using h
      simpa [drainFuel, dequeue] using ih rest hr

theorem drain_eq_id (q : List ThumbnailJob) : drain q = q :=
  drainFuel_eq_self q q.length (Nat.le_refl _)

theorem enqueueAll_eq_append (q js : List ThumbnailJob) :
    enqueueAll q js = q ++ js := by
  induction js generalizing q with
  | nil => simp [enqueueAll]
  | cons j rest ih => simpa [enqueueAll, enqueue] using ih (q ++ [j])

/-- C3: for every sequence of enqueue operations performed without
interleaved dequeues, successive `dequeue()` calls return the jobs in
exactly the order they were enqueued (after the jobs already queued), and
`dequeue()` on an empty queue returns none. -/
theorem queue_fifo (q js : List ThumbnailJob) :
    drain (enqueueAll q js) = q ++ js ∧
      dequeue ([] : List ThumbnailJob) = none := by
  refine ⟨?_, rfl⟩
  rw [enqueueAll_eq_append, drain_eq_id (q ++ js)]

theorem dispatchAll_empty_queue (ws : List Nat) :
    List.filterMap Prod.snd (dispatchAll ws []) = [] := by
  induction ws with
  | nil => rfl
  | cons w ws ih => simpa [dispatchAll, dequeue] using ih

/-- C5: with `ws` the interleaving order of N atomic dequeue calls by N
distinct workers against a queue holding M ≤ N jobs, the jobs returned
(across all workers) are exactly the queued jobs, each returned to exactly
one worker; every worker makes exactly one call and the surplus workers
receive none. -/
theorem dequeue_exactly_once (ws : List Nat) (q : List ThumbnailJob)
    (h : q.length ≤ ws.length) :
    List.filterMap Prod.snd (dispatchAll ws q) = q ∧
      List.map Prod.fst (dispatchAll ws q) = ws := by
  induction ws generalizing q with
  | nil =>
    have hq : q = [] := List.length_eq_zero.mp (Nat.le_zero.mp h)
    subst hq
    exact ⟨rfl, rfl⟩
  | cons w ws ih =>
    cases q with
    | nil =>
      refine ⟨?_, ?_⟩
      · simpa [dispatchAll, dequeue] using dispatchAll_empty_queue ws
      · have := (ih (q := []) (by simp)).2
        simpa [dispatchAll, dequeue] using this
    | cons j rest =>
      have hr : rest.length ≤ ws.length := by
        simpa [List.length_cons, Nat.succ_le_succ_iff] using h
      obtain ⟨h1, h2⟩ := ih rest hr
      exact ⟨by simpa [dispatchAll, dequeue] using h1,
        by simpa [dispatchAll, dequeue] using h2⟩

/-- Witness for C5 at a concrete input: three workers, two jobs. -/
theorem dequeue_exactly_once_witness :
    ([⟨1, ("a"), ThumbnailSize.small, JobStatus.pending, 0, 0⟩,
      ⟨2, ("b"), ThumbnailSize.large, JobStatus.pending, 0, 0⟩] :
        List ThumbnailJob).length ≤ ([10, 11, 12] : List Nat).length ∧
    (List.filterMap Prod.snd (dispatchAll [10, 11, 12]
        [⟨1, ("a"), ThumbnailSize.small, JobStatus.pending, 0, 0⟩,
         ⟨2, ("b"), ThumbnailSize.large, JobStatus.pending, 0, 0⟩]) =
      [⟨1, ("a"), ThumbnailSize.small, JobStatus.pending, 0, 0⟩,
       ⟨2, ("b"), ThumbnailSize.large, JobStatus.pending, 0, 0⟩] ∧
     List.map Prod.fst (dispatchAll [10, 11, 12]
        [⟨1, ("a"), ThumbnailSize.small, JobStatus.pending, 0, 0⟩,
         ⟨2, ("b"), ThumbnailSize.large, JobStatus.pending, 0, 0⟩]) =
       [10, 11, 12]) :=
  ⟨by decide,
   dequeue_exactly_once [10, 11, 12]
     [⟨1, ("a"), ThumbnailSize.small, JobStatus.pending, 0, 0⟩,
      ⟨2, ("b"), ThumbnailSize.large, JobStatus.pending, 0, 0⟩]
     (by decide)⟩

/-- `ProcessorConfig` (worker count, retry and timing parameters);
durations model milliseconds. -/
structure ProcessorConfig where
  worker_count : Nat
  max_retries : Nat
  base_retry_delay : Nat
  poll_interval : Nat
  generation_timeout : Nat
deriving DecidableEq, Repr

/-- Outcome of one generation attempt as the worker observes it. -/
inductive GenOutcome
| success
| genError
| timeout
deriving DecidableEq, Repr

/-- Failure classification used for logging only. -/
inductive FailureClass
| generationFailure
| timeoutFailure
deriving DecidableEq, Repr

/-- The worker's decision after a failed or timed-out generation attempt. -/
structure RetryDecision where
  job : ThumbnailJob
  reenqueue : Bool
  delay : Nat
deriving DecidableEq, Repr

/-- Modelled from the spec: the missing worker retry logic (shared by
failure and timeout).  Increment `retry_count`; while retries remain, reset
the job to Pending and schedule re-insertion after `base_retry_delay *
retry_count` (linear backoff); once retries are exhausted mark the job
permanently Failed with no re-enqueue.  The boundary is chosen so that a job
is attempted at most `max_retries + 1` times, matching the spec's exhausted-
retries scenario. -/
def handleFailure (cfg : ProcessorConfig) (job : ThumbnailJob) : RetryDecision :=
  let rc := job.retry_count + 1
  if rc ≤ cfg.max_retries then
    { job := { job with retry_count := rc, status := JobStatus.pending },
      reenqueue := true,
      delay := cfg.base_retry_delay * rc }
  else
    { job := { job with retry_count := rc, status := JobStatus.failed },
      reenqueue := false,
      delay := 0 }

/-- How the worker classifies and reacts to one attempt outcome: success
carries no retry decision; generation error and timeout share the retry
decision and differ only in the logged classification. -/
structure AttemptResult where
  decision : Option RetryDecision
  logClass : Option FailureClass
deriving DecidableEq, Repr

/-- Modelled from the spec: the missing worker code mapping an attempt
outcome to its handling. -/
def handleOutcome (cfg : ProcessorConfig) (job : ThumbnailJob) :
    GenOutcome → AttemptResult
  | GenOutcome.success => { decision := none, logClass := none }
  | GenOutcome.genError =>
      { decision := some (handleFailure cfg job),
        logClass := some FailureClass.generationFailure }
  | GenOutcome.timeout =>
      { decision := some (handleFailure cfg job),
        logClass := some FailureClass.timeoutFailure }

/-- Modelled from the spec: the missing timeout wrapper around a generation
call.  An attempt taking longer than the configured timeout is observed as a
timeout; otherwise the generation result (`true` for success) is observed
directly. -/
def attemptOutcome (cfg : ProcessorConfig) (duration : Nat) (ok : Bool) :
    GenOutcome :=
  if cfg.generation_timeout < duration then GenOutcome.timeout
  else if ok then GenOutcome.success else GenOutcome.genError

/-- Events in the life of one job as the retry mechanism drives it. -/
inductive JobEvent
| attempt
| reenqueued (delay : Nat)
| failedPermanently
| completed
deriving DecidableEq, Repr

/-- Modelled from the spec: the missing worker loop, restricted to a single
job.  `outcomes` supplies the result of each successive generation attempt;
the job is re-attempted whenever the retry mechanism re-enqueues it.
Returns the resolved job and its event trace, or `none` when the outcome
stream ends before resolution. -/
def runJob (cfg : ProcessorConfig) :
    ThumbnailJob → List GenOutcome → Option (ThumbnailJob × List JobEvent)
  | _, [] => none
  | job, o :: rest =>
    match o with
    | GenOutcome.success =>
        some ({ job with status := JobStatus.completed },
          [JobEvent.attempt, JobEvent.completed])
    | GenOutcome.genError =>
        if (handleFailure cfg job).reenqueue then
          match runJob cfg (handleFailure cfg job).job rest with
          | none => none
          | some (j, tr) =>
              some (j, JobEvent.attempt ::
                JobEvent.reenqueued (handleFailure cfg job).delay :: tr)
        else
          some ((handleFailure cfg job).job,
            [JobEvent.attempt, JobEvent.failedPermanently])
    | GenOutcome.timeout =>
        if (handleFailure cfg job).reenqueue then
          match runJob cfg (handleFailure cfg job).job rest with
          | none => none
          | some (j, tr) =>
              some (j, JobEvent.attempt ::
                JobEvent.reenqueued (handleFailure cfg job).delay :: tr)
        else
          some ((handleFailure cfg job).job,
            [JobEvent.attempt, JobEvent.failedPermanently])

/-- What the worker's loop looks like right after a failed attempt: its own
next poll time, and the detached delayed re-insertions it spawned. -/
structure WorkerStepResult where
  nextPollTime : Nat
  scheduledReinsertions : List (Nat × ThumbnailJob)
deriving DecidableEq, Repr

/-- Modelled from the spec: the missing worker behaviour after a generation
attempt fails at time `now`.  Re-insertion is spawned as a detached delayed
task firing at `now + delay`; the worker itself continues its loop and polls
again at `now + poll_interval`, independent of the backoff delay. -/
def workerAfterFailure (cfg : ProcessorConfig) (now : Nat)
    (job : ThumbnailJob) : WorkerStepResult :=
  { nextPollTime := now + cfg.poll_interval,
    scheduledReinsertions :=
      if (handleFailure cfg job).reenqueue then
        [(now + (handleFailure cfg job).delay, (handleFailure cfg job).job)]
      else [] }

theorem runJob_timeout_eq (cfg : ProcessorConfig) (job : ThumbnailJob)
    (rest : List GenOutcome) :
    runJob cfg job (GenOutcome.timeout :: rest) =
      runJob cfg job (GenOutcome.genError :: rest) := by
  simp [runJob]

theorem runJob_attempt_bound (cfg : ProcessorConfig) :
    ∀ (outcomes : List GenOutcome) (job j : ThumbnailJob) (tr : List JobEvent),
      runJob cfg job outcomes = some (j, tr) →
      job.retry_count ≤ cfg.max_retries →
      tr.count JobEvent.attempt + job.retry_count ≤ cfg.max_retries + 1 := by
  intro outcomes
  induction outcomes with
  | nil =>
    intro job j tr h _
    simp [runJob] at h
  | cons o rest ih =>
    intro job j tr h hrc
    cases o with
    | success =>
      simp [runJob] at h
      obtain ⟨-, htr⟩ := h
      subst htr
      simp [List.count_cons]
      omega
    | genError =>
      by_cases hc : job.retry_count + 1 ≤ cfg.max_retries
      · simp [runJob, handleFailure, hc] at h
        cases hrun : (runJob cfg
            { job with
              retry_count := job.retry_count + 1,
              status := JobStatus.pending } rest) with
        | none => rw [hrun] at h; simp at h
        | some p =>
          obtain ⟨j2, tr2⟩ := p
          rw [hrun] at h
          simp at h
          obtain ⟨-, htr⟩ := h
          subst htr
          have hb := ih _ j2 tr2 hrun (by simpa using hc)
          simp [List.count_cons] at hb ⊢
          omega
      · simp [runJob, handleFailure, hc] at h
        obtain ⟨-, htr⟩ := h
        subst htr
        simp [List.count_cons]
        omega
    | timeout =>
      rw [runJob_timeout_eq] at h
      by_cases hc : job.retry_count + 1 ≤ cfg.max_retries
      · simp [runJob, handleFailure, hc] at h
        cases hrun : (runJob cfg
            { job with
              retry_count := job.retry_count + 1,
              status := JobStatus.pending } rest) with
        | none => rw [hrun] at h; simp at h
        | some p =>
          obtain ⟨j2, tr2⟩ := p
          rw [hrun] at h
          simp at h
          obtain ⟨-, htr⟩ := h
          subst htr
          have hb := ih _ j2 tr2 hrun (by simpa using hc)
          simp [List.count_cons] at hb ⊢
          omega
      · simp [runJob, handleFailure, hc] at h
        obtain ⟨-, htr⟩ := h
        subst htr
        simp [List.count_cons]
        omega

theorem runJob_failed_terminal (cfg : ProcessorConfig) :
    ∀ (outcomes : List GenOutcome) (job j : ThumbnailJob) (tr : List JobEvent),
      runJob cfg job outcomes = some (j, tr) →
      j.status = JobStatus.failed →
      ∃ t, tr = t ++ [JobEvent.failedPermanently] ∧
        JobEvent.failedPermanently ∉ t := by
  intro outcomes
  induction outcomes with
  | nil =>
    intro job j tr h _
    simp [runJob] at h
  | cons o rest ih =>
    intro job j tr h hst
    cases o with
    | success =>
      simp [runJob] at h
      obtain ⟨hj, -⟩ := h
      rw [← hj] at hst
      simp at hst
    | genError =>
      by_cases hc : job.retry_count + 1 ≤ cfg.max_retries
      · simp [runJob, handleFailure, hc] at h
        cases hrun : (runJob cfg
            { job with
              retry_count := job.retry_count + 1,
              status := JobStatus.pending } rest) with
        | none => rw [hrun] at h; simp at h
        | some p =>
          obtain ⟨j2, tr2⟩ := p
          rw [hrun] at h
          simp at h
          obtain ⟨hj, htr⟩ := h
          subst htr
          subst hj
          obtain ⟨t, ht, hmem⟩ := ih _ _ tr2 hrun hst
          exact ⟨JobEvent.attempt ::
              JobEvent.reenqueued (cfg.base_retry_delay * (job.retry_count + 1)) :: t,
            by simp [ht], by simp [hmem]⟩
      · simp [runJob, handleFailure, hc] at h
        obtain ⟨-, htr⟩ := h
        subst htr
        exact ⟨[JobEvent.attempt], rfl, by simp⟩
    | timeout =>
      rw [runJob_timeout_eq] at h
      by_cases hc : job.retry_count + 1 ≤ cfg.max_retries
      · simp [runJob, handleFailure, hc] at h
        cases hrun : (runJob cfg
            { job with
              retry_count := job.retry_count + 1,
              status := JobStatus.pending } rest) with
        | none => rw [hrun] at h; simp at h
        | some p =>
          obtain ⟨j2, tr2⟩ := p
          rw [hrun] at h
          simp at h
          obtain ⟨hj, htr⟩ := h
          subst htr
          subst hj
          obtain ⟨t, ht, hmem⟩ := ih _ _ tr2 hrun hst
          exact ⟨JobEvent.attempt ::
              JobEvent.reenqueued (cfg.base_retry_delay * (job.retry_count + 1)) :: t,
            by simp [ht], by simp [hmem]⟩
      · simp [runJob, handleFailure, hc] at h
        obtain ⟨-, htr⟩ := h
        subst htr
        exact ⟨[JobEvent.attempt], rfl, by simp⟩

/-- C1: a job starting with `retry_count = 0` is attempted at most
`max_retries + 1` times; when it resolves as Failed, the permanent-failure
event is the unique last event of its trace, so the retry mechanism never
re-enqueues the job after its retries are exhausted. -/
theorem retry_bound (cfg : ProcessorConfig) (job j : ThumbnailJob)
    (outcomes : List GenOutcome) (tr : List JobEvent)
    (h0 : job.retry_count = 0)
    (h : runJob cfg job outcomes = some (j, tr)) :
    tr.count JobEvent.attempt ≤ cfg.max_retries + 1 ∧
      (j.status = JobStatus.failed →
        ∃ t, tr = t ++ [JobEvent.failedPermanently] ∧
          JobEvent.failedPermanently ∉ t) := by
  constructor
  · have := runJob_attempt_bound cfg outcomes job j tr h
      (by rw [h0]; exact Nat.zero_le _)
    omega
  · exact runJob_failed_terminal cfg outcomes job j tr h

/-- Witness for C1: `max_retries = 3` and a generator that always fails
yields exactly 4 attempts and a permanently Failed job. -/
theorem retry_bound_witness :
    (⟨1, ("p"), ThumbnailSize.small, JobStatus.pending, 0, 0⟩ :
        ThumbnailJob).retry_count = 0 ∧
    runJob ⟨2, 3, 100, 100, 2000⟩
        ⟨1, ("p"), ThumbnailSize.small, JobStatus.pending, 0, 0⟩
        [GenOutcome.genError, GenOutcome.genError, GenOutcome.genError,
         GenOutcome.genError] =
      some (⟨1, ("p"), ThumbnailSize.small, JobStatus.failed, 4, 0⟩,
        [JobEvent.attempt, JobEvent.reenqueued 100, JobEvent.attempt,
         JobEvent.reenqueued 200, JobEvent.attempt, JobEvent.reenqueued 300,
         JobEvent.attempt, JobEvent.failedPermanently]) ∧
    ([JobEvent.attempt, JobEvent.reenqueued 100, JobEvent.attempt,
      JobEvent.reenqueued 200, JobEvent.attempt, JobEvent.reenqueued 300,
      JobEvent.attempt, JobEvent.failedPermanently].count JobEvent.attempt ≤
        (3 : Nat) + 1 ∧
      ((⟨1, ("p"), ThumbnailSize.small, JobStatus.failed, 4, 0⟩ :
          ThumbnailJob).status = JobStatus.failed →
        ∃ t, [JobEvent.attempt, JobEvent.reenqueued 100, JobEvent.attempt,
          JobEvent.reenqueued 200, JobEvent.attempt, JobEvent.reenqueued 300,
          JobEvent.attempt, JobEvent.failedPermanently] =
            t ++ [JobEvent.failedPermanently] ∧
          JobEvent.failedPermanently ∉ t)) :=
  ⟨rfl, by decide,
    retry_bound ⟨2, 3, 100, 100, 2000⟩
      ⟨1, ("p"), ThumbnailSize.small, JobStatus.pending, 0, 0⟩
      ⟨1, ("p"), ThumbnailSize.small, JobStatus.failed, 4, 0⟩
      [GenOutcome.genError, GenOutcome.genError, GenOutcome.genError,
       GenOutcome.genError]
      [JobEvent.attempt, JobEvent.reenqueued 100, JobEvent.attempt,
       JobEvent.reenqueued 200, JobEvent.attempt, JobEvent.reenqueued 300,
       JobEvent.attempt, JobEvent.failedPermanently]
      rfl (by decide)⟩

/-- C2: for a failed job whose retry count is still below the configured
maximum, the job is reset to Pending, the re-insertion delay is
`base_retry_delay * retry_count` (linear backoff, with the incremented
count), the re-insertion is a detached event at `now + delay`, and the
worker's own next poll happens after `poll_interval` independent of that
delay. -/
theorem retry_linear_backoff (cfg : ProcessorConfig) (now : Nat)
    (job : ThumbnailJob) (h : job.retry_count < cfg.max_retries) :
    (handleFailure cfg job).reenqueue = true ∧
    (handleFailure cfg job).job.status = JobStatus.pending ∧
    (handleFailure cfg job).job.retry_count = job.retry_count + 1 ∧
    (handleFailure cfg job).delay =
      cfg.base_retry_delay * (handleFailure cfg job).job.retry_count ∧
    (workerAfterFailure cfg now job).scheduledReinsertions =
      [(now + cfg.base_retry_delay * (job.retry_count + 1),
        (handleFailure cfg job).job)] ∧
    (workerAfterFailure cfg now job).nextPollTime = now + cfg.poll_interval := by
  have hc : job.retry_count + 1 ≤ cfg.max_retries := h
  simp [handleFailure, workerAfterFailure, hc]

/-- Witness for C2 at a concrete input: second retry of a job. -/
theorem retry_linear_backoff_witness :
    ((⟨1, ("p"), ThumbnailSize.medium, JobStatus.processing, 1, 0⟩ :
        ThumbnailJob).retry_count <
      (⟨2, 3, 50, 100, 2000⟩ : ProcessorConfig).max_retries) ∧
    ((handleFailure ⟨2, 3, 50, 100, 2000⟩
        ⟨1, ("p"), ThumbnailSize.medium, JobStatus.processing, 1, 0⟩).reenqueue =
          true ∧
      (handleFailure ⟨2, 3, 50, 100, 2000⟩
        ⟨1, ("p"), ThumbnailSize.medium, JobStatus.processing, 1, 0⟩).job.status =
          JobStatus.pending ∧
      (handleFailure ⟨2, 3, 50, 100, 2000⟩
        ⟨1, ("p"), ThumbnailSize.medium, JobStatus.processing, 1, 0⟩).job.retry_count =
          (⟨1, ("p"), ThumbnailSize.medium, JobStatus.processing, 1, 0⟩ :
            ThumbnailJob).retry_count + 1 ∧
      (handleFailure ⟨2, 3, 50, 100, 2000⟩
        ⟨1, ("p"), ThumbnailSize.medium, JobStatus.processing, 1, 0⟩).delay =
          (⟨2, 3, 50, 100, 2000⟩ : ProcessorConfig).base_retry_delay *
            (handleFailure ⟨2, 3, 50, 100, 2000⟩
              ⟨1, ("p"), ThumbnailSize.medium, JobStatus.processing, 1, 0⟩).job.retry_count ∧
      (workerAfterFailure ⟨2, 3, 50, 100, 2000⟩ 7
        ⟨1, ("p"), ThumbnailSize.medium, JobStatus.processing, 1, 0⟩).scheduledReinsertions =
          [(7 + (⟨2, 3, 50, 100, 2000⟩ : ProcessorConfig).base_retry_delay *
              ((⟨1, ("p"), ThumbnailSize.medium, JobStatus.processing, 1, 0⟩ :
                ThumbnailJob).retry_count + 1),
            (handleFailure ⟨2, 3, 50, 100, 2000⟩
              ⟨1, ("p"), ThumbnailSize.medium, JobStatus.processing, 1, 0⟩).job)] ∧
      (workerAfterFailure ⟨2, 3, 50, 100, 2000⟩ 7
        ⟨1, ("p"), ThumbnailSize.medium, JobStatus.processing, 1, 0⟩).nextPollTime =
          7 + (⟨2, 3, 50, 100, 2000⟩ : ProcessorConfig).poll_interval) :=
  ⟨by decide,
    retry_linear_backoff ⟨2, 3, 50, 100, 2000⟩ 7
      ⟨1, ("p"), ThumbnailSize.medium, JobStatus.processing, 1, 0⟩ (by decide)⟩

/-- C8: an attempt exceeding the configured timeout is observed as a
timeout, handled identically to a generation error for retry purposes (same
retry decision and the same continuation of the retry state machine), and
distinguished from a generation error only by its logged classification. -/
theorem timeout_treated_as_gen_failure (cfg : ProcessorConfig)
    (job : ThumbnailJob) (duration : Nat) (ok : Bool)
    (h : cfg.generation_timeout < duration) :
    attemptOutcome cfg duration ok = GenOutcome.timeout ∧
    (handleOutcome cfg job GenOutcome.timeout).decision =
      (handleOutcome cfg job GenOutcome.genError).decision ∧
    (∀ rest, runJob cfg job (GenOutcome.timeout :: rest) =
      runJob cfg job (GenOutcome.genError :: rest)) ∧
    (handleOutcome cfg job GenOutcome.timeout).logClass =
      some FailureClass.timeoutFailure ∧
    (handleOutcome cfg job GenOutcome.genError).logClass =
      some FailureClass.generationFailure ∧
    (handleOutcome cfg job GenOutcome.timeout).logClass ≠
      (handleOutcome cfg job GenOutcome.genError).logClass := by
  refine ⟨by simp [attemptOutcome, h], rfl,
    fun rest => runJob_timeout_eq cfg job rest, rfl, rfl, by simp [handleOutcome]⟩

/-- Witness for C8 at a concrete input: a 10s attempt against a 2s budget. -/
theorem timeout_treated_as_gen_failure_witness :
    ((⟨2, 3, 50, 100, 2000⟩ : ProcessorConfig).generation_timeout < 10000) ∧
    (attemptOutcome ⟨2, 3, 50, 100, 2000⟩ 10000 true = GenOutcome.timeout ∧
      (handleOutcome ⟨2, 3, 50, 100, 2000⟩
        ⟨1, ("p"), ThumbnailSize.small, JobStatus.processing, 0, 0⟩
        GenOutcome.timeout).decision =
        (handleOutcome ⟨2, 3, 50, 100, 2000⟩
          ⟨1, ("p"), ThumbnailSize.small, JobStatus.processing, 0, 0⟩
          GenOutcome.genError).decision ∧
      (∀ rest, runJob ⟨2, 3, 50, 100, 2000⟩
          ⟨1, ("p"), ThumbnailSize.small, JobStatus.processing, 0, 0⟩
          (GenOutcome.timeout :: rest) =
        runJob ⟨2, 3, 50, 100, 2000⟩
          ⟨1, ("p"), ThumbnailSize.small, JobStatus.processing, 0, 0⟩
          (GenOutcome.genError :: rest)) ∧
      (handleOutcome ⟨2, 3, 50, 100, 2000⟩
        ⟨1, ("p"), ThumbnailSize.small, JobStatus.processing, 0, 0⟩
        GenOutcome.timeout).logClass = some FailureClass.timeoutFailure ∧
      (handleOutcome ⟨2, 3, 50, 100, 2000⟩
        ⟨1, ("p"), ThumbnailSize.small, JobStatus.processing, 0, 0⟩
        GenOutcome.genError).logClass = some FailureClass.generationFailure ∧
      (handleOutcome ⟨2, 3, 50, 100, 2000⟩
        ⟨1, ("p"), ThumbnailSize.small, JobStatus.processing, 0, 0⟩
        GenOutcome.timeout).logClass ≠
        (handleOutcome ⟨2, 3, 50, 100, 2000⟩
          ⟨1, ("p"), ThumbnailSize.small, JobStatus.processing, 0, 0⟩
          GenOutcome.genError).logClass) :=
  ⟨by decide,
    timeout_treated_as_gen_failure ⟨2, 3, 50, 100, 2000⟩
      ⟨1, ("p"), ThumbnailSize.small, JobStatus.processing, 0, 0⟩
      10000 true (by decide)⟩

/-- `ProcessingStats` as shared by the workers and the periodic updater. -/
structure ProcessingStats where
  completed_jobs : Nat
  failed_jobs : Nat
  throughput_per_second : Nat
  last_update : Nat
deriving DecidableEq, Repr

/-- The lock-protected shared state relevant to the statistics invariants:
the stats record together with the bookkeeping needed to state the "sum
never exceeds jobs dequeued" bound. -/
structure StatsState where
  stats : ProcessingStats
  dequeued_total : Nat
  inflight : Nat
deriving DecidableEq, Repr

/-- The operations that touch the shared statistics over a processor
lifetime: a worker dequeues a job, a worker resolves a job it holds
(complete or fail), or the periodic updater recomputes the derived
throughput fields. -/
inductive StatsOp
| dequeueJob
| completeJob
| failJob
| statsTick (throughput : Nat) (now : Nat)
deriving DecidableEq, Repr

/-- Modelled from the spec: the missing lock-mediated statistics updates.
Workers increment `completed_jobs`/`failed_jobs` only at the moment a job
they dequeued resolves, so a resolution with no job in flight cannot occur
and is modelled as a no-op; the periodic updater only rewrites the derived
`throughput_per_second` and `last_update` fields, never the counters. -/
def statsStep (s : StatsState) : StatsOp → StatsState
  | StatsOp.dequeueJob =>
      { s with dequeued_total := s.dequeued_total + 1,
               inflight := s.inflight + 1 }
  | StatsOp.completeJob =>
      if s.inflight = 0 then s
      else
        { s with
          stats := { s.stats with completed_jobs := s.stats.completed_jobs + 1 },
          inflight := s.inflight - 1 }
  | StatsOp.failJob =>
      if s.inflight = 0 then s
      else
        { s with
          stats := { s.stats with failed_jobs := s.stats.failed_jobs + 1 },
          inflight := s.inflight - 1 }
  | StatsOp.statsTick tp now =>
      { s with
        stats := { s.stats with throughput_per_second := tp, last_update := now } }

/-- A whole processor lifetime of statistics operations. -/
def statsRun (s : StatsState) (ops : List StatsOp) : StatsState :=
  ops.foldl statsStep s

/-- Statistics at processor startup. -/
def initStats : StatsState :=
  { stats := { completed_jobs := 0, failed_jobs := 0,
               throughput_per_second := 0, last_update := 0 },
    dequeued_total := 0, inflight := 0 }

theorem statsStep_mono (s : StatsState) (op : StatsOp) :
    s.stats.completed_jobs ≤ (statsStep s op).stats.completed_jobs ∧
      s.stats.failed_jobs ≤ (statsStep s op).stats.failed_jobs := by
  cases op with
  | dequeueJob => exact ⟨Nat.le_refl _, Nat.le_refl _⟩
  | completeJob =>
    by_cases hz : s.inflight = 0 <;> simp [statsStep, hz]
  | failJob =>
    by_cases hz : s.inflight = 0 <;> simp [statsStep, hz]
  | statsTick tp now => exact ⟨Nat.le_refl _, Nat.le_refl _⟩

theorem statsRun_mono (ops : List StatsOp) :
    ∀ s : StatsState,
      s.stats.completed_jobs ≤ (statsRun s ops).stats.completed_jobs ∧
        s.stats.failed_jobs ≤ (statsRun s ops).stats.failed_jobs := by
  induction ops with
  | nil => intro s; exact ⟨Nat.le_refl _, Nat.le_refl _⟩
  | cons op rest ih =>
    intro s
    have h1 := statsStep_mono s op
    have h2 := ih (statsStep s op)
    have he : statsRun s (op :: rest) = statsRun (statsStep s op) rest := rfl
    rw [he]
    exact ⟨Nat.le_trans h1.1 h2.1, Nat.le_trans h1.2 h2.2⟩

theorem statsStep_balance (s : StatsState) (op : StatsOp)
    (h : s.stats.completed_jobs + s.stats.failed_jobs + s.inflight =
      s.dequeued_total) :
    (statsStep s op).stats.completed_jobs + (statsStep s op).stats.failed_jobs +
        (statsStep s op).inflight = (statsStep s op).dequeued_total := by
  cases op with
  | dequeueJob => simp [statsStep]; omega
  | completeJob =>
    by_cases hz : s.inflight = 0 <;> simp [statsStep, hz] <;> omega
  | failJob =>
    by_cases hz : s.inflight = 0 <;> simp [statsStep, hz] <;> omega
  | statsTick tp now => simpa [statsStep] using h

theorem statsRun_balance (ops : List StatsOp) :
    ∀ s : StatsState,
      s.stats.completed_jobs + s.stats.failed_jobs + s.inflight =
        s.dequeued_total →
      (statsRun s ops).stats.completed_jobs + (statsRun s ops).stats.failed_jobs +
          (statsRun s ops).inflight = (statsRun s ops).dequeued_total := by
  induction ops with
  | nil => intro s h; exact h
  | cons op rest ih =>
    intro s h
    have he : statsRun s (op :: rest) = statsRun (statsStep s op) rest := rfl
    rw [he]
    exact ih (statsStep s op) (statsStep_balance s op h)

/-- C7: over the lifetime of a single Processor instance (all statistics
operations applied from the startup state), `completed_jobs` and
`failed_jobs` never decrease — any later point of the lifetime has counters
at least as large as any earlier point — and their sum never exceeds the
total number of jobs ever dequeued. -/
theorem stats_monotonic (ops more : List StatsOp) :
    (statsRun initStats ops).stats.completed_jobs ≤
        (statsRun initStats (ops ++ more)).stats.completed_jobs ∧
      (statsRun initStats ops).stats.failed_jobs ≤
        (statsRun initStats (ops ++ more)).stats.failed_jobs ∧
      (statsRun initStats ops).stats.completed_jobs +
          (statsRun initStats ops).stats.failed_jobs ≤
        (statsRun initStats ops).dequeued_total := by
  have hsplit : statsRun initStats (ops ++ more) =
      statsRun (statsRun initStats ops) more := by
    simp [statsRun, List.foldl_append]
  have hmono := statsRun_mono more (statsRun initStats ops)
  have hbal := statsRun_balance ops initStats (by simp [initStats])
  refine ⟨?_, ?_, ?_⟩
  · rw [hsplit]; exact hmono.1
  · rw [hsplit]; exact hmono.2
  · omega

/-- Errors surfaced by the Processor's message handlers for malformed
requests. -/
inductive PipelineError
| emptyFileListError
deriving DecidableEq, Repr

/-- The job created by the Processor for one file/size pair. -/
def mkJob (file_id : Nat) (file_path : String) (size : ThumbnailSize)
    (now : Nat) : ThumbnailJob :=
  { file_id := file_id, file_path := file_path, target_size := size,
    status := JobStatus.pending, retry_count := 0, enqueued_at := now }

/-- Modelled from the spec: the missing body of
`queue_files_for_processing` (only its call site appears in the run loop).
Expands the cross-product of files × requested sizes into jobs, appends each
to the back of the queue and returns the count queued; an empty file list is
a malformed request and yields an error. -/
def queue_files_for_processing (q : List ThumbnailJob)
    (file_infos : List (Nat × String)) (sizes : List ThumbnailSize)
    (now : Nat) : Except PipelineError (List ThumbnailJob × Nat) :=
  if file_infos.isEmpty then Except.error PipelineError.emptyFileListError
  else
    Except.ok
      (q ++ (file_infos.map (fun fi => sizes.map (fun s => mkJob fi.1 fi.2 s now))).flatten,
       ((file_infos.map (fun fi => sizes.map (fun s => mkJob fi.1 fi.2 s now))).flatten).length)

theorem length_join_map (f : Nat × String → ThumbnailSize → ThumbnailJob)
    (l : List (Nat × String)) (sizes : List ThumbnailSize) :
    ((l.map (fun fi => sizes.map (f fi))).flatten).length =
      l.length * sizes.length := by
  induction l with
  | nil => simp
  | cons x xs ih => simp [ih, Nat.succ_mul, Nat.add_comm]

/-- C6 counterexample: a `QueueFiles` request with an empty file list does
not return `|F| × |S| = 0` as the count queued; it is rejected as a
malformed request. -/
theorem queue_files_empty_is_error :
    queue_files_for_processing [] [] [ThumbnailSize.small] 0 =
        Except.error PipelineError.emptyFileListError ∧
      ∀ (q2 : List ThumbnailJob) (n : Nat),
        queue_files_for_processing [] [] [ThumbnailSize.small] 0 ≠
          Except.ok (q2, n) := by
  refine ⟨rfl, ?_⟩
  intro q2 n hcontra
  simp [queue_files_for_processing] at hcontra

/-- C6 (amended): for every `QueueFiles` message with a non-empty file list
`F` and size list `S`, the Processor enqueues exactly `|F| × |S|` jobs — one
per file/size pair of the cross-product, appended behind the existing queue —
and returns `|F| × |S|` as the count queued. -/
theorem queue_files_cross_product (q : List ThumbnailJob)
    (file_infos : List (Nat × String)) (sizes : List ThumbnailSize)
    (now : Nat) (h : file_infos ≠ []) :
    ∃ q2, queue_files_for_processing q file_infos sizes now =
        Except.ok (q2, file_infos.length * sizes.length) ∧
      q2.length = q.length + file_infos.length * sizes.length ∧
      ∀ fi ∈ file_infos, ∀ s ∈ sizes, mkJob fi.1 fi.2 s now ∈ q2 := by
  have hne : file_infos.isEmpty = false := by
    cases file_infos with
    | nil => exact absurd rfl h
    | cons x xs => rfl
  refine ⟨q ++ (file_infos.map
      (fun fi => sizes.map (fun s => mkJob fi.1 fi.2 s now))).flatten, ?_, ?_, ?_⟩
  · simp [queue_files_for_processing, hne,
      length_join_map (fun fi s => mkJob fi.1 fi.2 s now)]
  · simp [length_join_map (fun fi s => mkJob fi.1 fi.2 s now)]
  · intro fi hfi s hs
    refine List.mem_append.mpr (Or.inr ?_)
    rw [List.mem_flatten]
    exact ⟨sizes.map (fun s2 => mkJob fi.1 fi.2 s2 now),
      List.mem_map_of_mem _ hfi, List.mem_map_of_mem _ hs⟩

/-- Witness for C6 at a concrete input: two files, two sizes. -/
theorem queue_files_cross_product_witness :
    (([(1, ("a")), (2, ("b"))] : List (Nat × String)) ≠ []) ∧
    (∃ q2, queue_files_for_processing [] [(1, ("a")), (2, ("b"))]
          [ThumbnailSize.small, ThumbnailSize.large] 0 =
        Except.ok (q2,
          ([(1, ("a")), (2, ("b"))] : List (Nat × String)).length *
            ([ThumbnailSize.small, ThumbnailSize.large] :
              List ThumbnailSize).length) ∧
      q2.length = ([] : List ThumbnailJob).length +
          ([(1, ("a")), (2, ("b"))] : List (Nat × String)).length *
            ([ThumbnailSize.small, ThumbnailSize.large] :
              List ThumbnailSize).length ∧
      ∀ fi ∈ ([(1, ("a")), (2, ("b"))] : List (Nat × String)),
        ∀ s ∈ ([ThumbnailSize.small, ThumbnailSize.large] : List ThumbnailSize),
          mkJob fi.1 fi.2 s 0 ∈ q2) :=
  ⟨by decide,
    queue_files_cross_product [] [(1, ("a")), (2, ("b"))]
      [ThumbnailSize.small, ThumbnailSize.large] 0 (by decide)⟩

/-- `ThumbnailMessage`: the Processor's inbound control messages.  For
`GetStats`, `receiver_alive` models whether the requester still holds its
end of the one-shot response channel when the snapshot is sent. -/
inductive ThumbnailMessage
| queueFiles (file_infos : List (Nat × String)) (sizes : List ThumbnailSize)
| getStats (receiver_alive : Bool)
| shutdown
deriving DecidableEq, Repr

/-- The Processor state threaded through the message loop. -/
structure ProcState where
  job_queue : List ThumbnailJob
  stats : ProcessingStats
deriving DecidableEq, Repr

/-- The message-processing loop of `ThumbnailProcessor::run`
(`src/unnamed/part_001`, lines 437-452): messages are handled sequentially;
`QueueFiles` enqueues via `queue_files_for_processing` and propagates its
error; `GetStats` sends a snapshot, discarding the send result; `Shutdown`
breaks out of the loop; an exhausted message list models the inbound channel
closing (`recv()` returning `None`). -/
def mainLoop (now : Nat) :
    ProcState → List ThumbnailMessage → Except PipelineError ProcState
  | st, [] => Except.ok st
  | st, msg :: rest =>
    match msg with
    | ThumbnailMessage.queueFiles file_infos sizes =>
      match queue_files_for_processing st.job_queue file_infos sizes now with
      | Except.error e => Except.error e
      | Except.ok (q2, _) => mainLoop now { st with job_queue := q2 } rest
    | ThumbnailMessage.getStats _ => mainLoop now st rest
    | ThumbnailMessage.shutdown => Except.ok st

/-- Observable events of one `run` invocation. -/
inductive RunEvent
| queuedJobs (count : Nat)
| sentStats (delivered : Bool)
| broadcastShutdown
| joinedWorker (id : Nat)
| joinedStatsUpdater
deriving DecidableEq, Repr

/-- Events emitted while the message loop runs (`GetStats` records whether
the snapshot was actually delivered; a dropped receiver is discarded). -/
def mainTrace (now : Nat) :
    ProcState → List ThumbnailMessage → List RunEvent
  | _, [] => []
  | st, msg :: rest =>
    match msg with
    | ThumbnailMessage.queueFiles file_infos sizes =>
      match queue_files_for_processing st.job_queue file_infos sizes now with
      | Except.error _ => []
      | Except.ok (q2, n) =>
          RunEvent.queuedJobs n ::
            mainTrace now { st with job_queue := q2 } rest
    | ThumbnailMessage.getStats alive =>
        RunEvent.sentStats alive :: mainTrace now st rest
    | ThumbnailMessage.shutdown => []

/-- After the loop exits, `run` broadcasts the shutdown signal
(`notify_waiters`, line 455) and then awaits each spawned worker handle in
turn (lines 458-462).  The Stats-updater task is modelled from the spec: it
observes the same signal and is joined before `run` returns (the excerpt in
`src/unnamed/part_001` elides its spawn/join). -/
def shutdownTrace (cfg : ProcessorConfig) : List RunEvent :=
  RunEvent.broadcastShutdown ::
    ((List.range cfg.worker_count).map RunEvent.joinedWorker ++
      [RunEvent.joinedStatsUpdater])

/-- `ThumbnailProcessor::run`: the message loop followed — on every
non-error exit — by the shutdown broadcast and the joining of all spawned
tasks. -/
def runProcessor (cfg : ProcessorConfig) (now : Nat) (st : ProcState)
    (msgs : List ThumbnailMessage) :
    Except PipelineError (ProcState × List RunEvent) :=
  match mainLoop now st msgs with
  | Except.error e => Except.error e
  | Except.ok st2 =>
      Except.ok (st2, mainTrace now st msgs ++ shutdownTrace cfg)

/-- Events the message loop itself can emit (no shutdown broadcast, no
join). -/
def isMainEvent : RunEvent → Bool
  | RunEvent.queuedJobs _ => true
  | RunEvent.sentStats _ => true
  | RunEvent.broadcastShutdown => false
  | RunEvent.joinedWorker _ => false
  | RunEvent.joinedStatsUpdater => false

theorem mainTrace_events (now : Nat) :
    ∀ (msgs : List ThumbnailMessage) (st : ProcState),
      ∀ e ∈ mainTrace now st msgs, isMainEvent e = true := by
  intro msgs
  induction msgs with
  | nil => intro st e he; simp [mainTrace] at he
  | cons msg rest ih =>
    intro st e he
    cases msg with
    | queueFiles file_infos sizes =>
      cases hq : queue_files_for_processing st.job_queue file_infos sizes now with
      | error er => rw [mainTrace, hq] at he; simp at he
      | ok p =>
        obtain ⟨q2, n⟩ := p
        rw [mainTrace, hq] at he
        rcases List.mem_cons.mp he with h1 | h2
        · subst h1; rfl
        · exact ih _ e h2
    | getStats alive =>
      rcases List.mem_cons.mp (by simpa [mainTrace] using he) with h1 | h2
      · subst h1; rfl
      · exact ih _ e h2
    | shutdown => simp [mainTrace] at he

/-- C4: when `run` returns after processing a `Shutdown` message, its event
trace ends with the shutdown broadcast followed by the join of every spawned
worker task (ids `0..worker_count-1`) and of the Stats-updater task, and no
broadcast or join occurs anywhere else in the trace — the broadcast comes
first and no spawned task is still running when `run` returns. -/
theorem shutdown_broadcast_then_join_all (cfg : ProcessorConfig) (now : Nat)
    (st : ProcState) (msgs : List ThumbnailMessage) (st2 : ProcState)
    (tr : List RunEvent)
    (hok : runProcessor cfg now st msgs = Except.ok (st2, tr))
    (hsd : ThumbnailMessage.shutdown ∈ msgs) :
    ∃ t0, tr = t0 ++ (RunEvent.broadcastShutdown ::
        ((List.range cfg.worker_count).map RunEvent.joinedWorker ++
          [RunEvent.joinedStatsUpdater])) ∧
      (∀ e ∈ t0, isMainEvent e = true) ∧
      (∀ i < cfg.worker_count, RunEvent.joinedWorker i ∈ tr) ∧
      RunEvent.joinedStatsUpdater ∈ tr := by
  clear hsd
  cases hml : mainLoop now st msgs with
  | error e =>
    rw [runProcessor] at hok
    rw [hml] at hok
    exact absurd hok (by simp)
  | ok st3 =>
    rw [runProcessor] at hok
    rw [hml] at hok
    have hok2 := hok
    simp only [Except.ok.injEq, Prod.mk.injEq] at hok2
    have htr : mainTrace now st msgs ++ shutdownTrace cfg = tr := hok2.2
    refine ⟨mainTrace now st msgs, ?_, ?_, ?_, ?_⟩
    · rw [← htr]; rfl
    · exact mainTrace_events now msgs st
    · intro i hi
      rw [← htr, shutdownTrace]
      simp only [List.mem_append, List.mem_cons, List.mem_map, List.mem_range,
        List.mem_singleton]
      exact Or.inr (Or.inr (Or.inl ⟨i, hi, rfl⟩))
    · rw [← htr, shutdownTrace]
      simp

/-- Witness for C4 at a concrete input: a `GetStats` message followed by
`Shutdown`, with two workers. -/
theorem shutdown_broadcast_then_join_all_witness :
    runProcessor ⟨2, 3, 50, 100, 2000⟩ 0 ⟨[], ⟨0, 0, 0, 0⟩⟩
        [ThumbnailMessage.getStats true, ThumbnailMessage.shutdown] =
      Except.ok (⟨[], ⟨0, 0, 0, 0⟩⟩,
        [RunEvent.sentStats true, RunEvent.broadcastShutdown,
         RunEvent.joinedWorker 0, RunEvent.joinedWorker 1,
         RunEvent.joinedStatsUpdater]) ∧
    ThumbnailMessage.shutdown ∈
      [ThumbnailMessage.getStats true, ThumbnailMessage.shutdown] ∧
    (∃ t0, [RunEvent.sentStats true, RunEvent.broadcastShutdown,
         RunEvent.joinedWorker 0, RunEvent.joinedWorker 1,
         RunEvent.joinedStatsUpdater] = t0 ++ (RunEvent.broadcastShutdown ::
        ((List.range (⟨2, 3, 50, 100, 2000⟩ : ProcessorConfig).worker_count).map
            RunEvent.joinedWorker ++ [RunEvent.joinedStatsUpdater])) ∧
      (∀ e ∈ t0, isMainEvent e = true) ∧
      (∀ i < (⟨2, 3, 50, 100, 2000⟩ : ProcessorConfig).worker_count,
        RunEvent.joinedWorker i ∈
          [RunEvent.sentStats true, RunEvent.broadcastShutdown,
           RunEvent.joinedWorker 0, RunEvent.joinedWorker 1,
           RunEvent.joinedStatsUpdater]) ∧
      RunEvent.joinedStatsUpdater ∈
        [RunEvent.sentStats true, RunEvent.broadcastShutdown,
         RunEvent.joinedWorker 0, RunEvent.joinedWorker 1,
         RunEvent.joinedStatsUpdater]) :=
  ⟨rfl, by decide,
    shutdown_broadcast_then_join_all ⟨2, 3, 50, 100, 2000⟩ 0 ⟨[], ⟨0, 0, 0, 0⟩⟩
      [ThumbnailMessage.getStats true, ThumbnailMessage.shutdown]
      ⟨[], ⟨0, 0, 0, 0⟩⟩
      [RunEvent.sentStats true, RunEvent.broadcastShutdown,
       RunEvent.joinedWorker 0, RunEvent.joinedWorker 1,
       RunEvent.joinedStatsUpdater]
      rfl (by decide)⟩

/-- C9: when the inbound channel closes (the message list is exhausted)
without any `Shutdown` message having been received and the loop exits
normally, `run` still broadcasts the shutdown signal and joins every
spawned worker task and the Stats-updater before returning — the same drain
behaviour as an explicit `Shutdown`. -/
theorem channel_close_drains_like_shutdown (cfg : ProcessorConfig) (now : Nat)
    (st : ProcState) (msgs : List ThumbnailMessage) (st2 : ProcState)
    (tr : List RunEvent)
    (hns : ThumbnailMessage.shutdown ∉ msgs)
    (hok : runProcessor cfg now st msgs = Except.ok (st2, tr)) :
    ∃ t0, tr = t0 ++ (RunEvent.broadcastShutdown ::
        ((List.range cfg.worker_count).map RunEvent.joinedWorker ++
          [RunEvent.joinedStatsUpdater])) ∧
      (∀ e ∈ t0, isMainEvent e = true) ∧
      (∀ i < cfg.worker_count, RunEvent.joinedWorker i ∈ tr) ∧
      RunEvent.joinedStatsUpdater ∈ tr := by
  clear hns
  cases hml : mainLoop now st msgs with
  | error e =>
    rw [runProcessor] at hok
    rw [hml] at hok
    exact absurd hok (by simp)
  | ok st3 =>
    rw [runProcessor] at hok
    rw [hml] at hok
    have hok2 := hok
    simp only [Except.ok.injEq, Prod.mk.injEq] at hok2
    have htr : mainTrace now st msgs ++ shutdownTrace cfg = tr := hok2.2
    refine ⟨mainTrace now st msgs, ?_, ?_, ?_, ?_⟩
    · rw [← htr]; rfl
    · exact mainTrace_events now msgs st
    · intro i hi
      rw [← htr, shutdownTrace]
      simp only [List.mem_append, List.mem_cons, List.mem_map, List.mem_range,
        List.mem_singleton]
      exact Or.inr (Or.inr (Or.inl ⟨i, hi, rfl⟩))
    · rw [← htr, shutdownTrace]
      simp

/-- Witness for C9 at a concrete input: the channel closes after a
`QueueFiles` and a `GetStats`, with no `Shutdown` ever received. -/
theorem channel_close_drains_like_shutdown_witness :
    ThumbnailMessage.shutdown ∉
      [ThumbnailMessage.queueFiles [(1, ("a"))] [ThumbnailSize.small],
       ThumbnailMessage.getStats true] ∧
    runProcessor ⟨2, 3, 50, 100, 2000⟩ 0 ⟨[], ⟨0, 0, 0, 0⟩⟩
        [ThumbnailMessage.queueFiles [(1, ("a"))] [ThumbnailSize.small],
         ThumbnailMessage.getStats true] =
      Except.ok (⟨[⟨1, ("a"), ThumbnailSize.small, JobStatus.pending, 0, 0⟩],
          ⟨0, 0, 0, 0⟩⟩,
        [RunEvent.queuedJobs 1, RunEvent.sentStats true,
         RunEvent.broadcastShutdown, RunEvent.joinedWorker 0,
         RunEvent.joinedWorker 1, RunEvent.joinedStatsUpdater]) ∧
    (∃ t0, [RunEvent.queuedJobs 1, RunEvent.sentStats true,
         RunEvent.broadcastShutdown, RunEvent.joinedWorker 0,
         RunEvent.joinedWorker 1, RunEvent.joinedStatsUpdater] =
        t0 ++ (RunEvent.broadcastShutdown ::
        ((List.range (⟨2, 3, 50, 100, 2000⟩ : ProcessorConfig).worker_count).map
            RunEvent.joinedWorker ++ [RunEvent.joinedStatsUpdater])) ∧
      (∀ e ∈ t0, isMainEvent e = true) ∧
      (∀ i < (⟨2, 3, 50, 100, 2000⟩ : ProcessorConfig).worker_count,
        RunEvent.joinedWorker i ∈
          [RunEvent.queuedJobs 1, RunEvent.sentStats true,
           RunEvent.broadcastShutdown, RunEvent.joinedWorker 0,
           RunEvent.joinedWorker 1, RunEvent.joinedStatsUpdater]) ∧
      RunEvent.joinedStatsUpdater ∈
        [RunEvent.queuedJobs 1, RunEvent.sentStats true,
         RunEvent.broadcastShutdown, RunEvent.joinedWorker 0,
         RunEvent.joinedWorker 1, RunEvent.joinedStatsUpdater]) :=
  ⟨by decide, rfl,
    channel_close_drains_like_shutdown ⟨2, 3, 50, 100, 2000⟩ 0
      ⟨[], ⟨0, 0, 0, 0⟩⟩
      [ThumbnailMessage.queueFiles [(1, ("a"))] [ThumbnailSize.small],
       ThumbnailMessage.getStats true]
      ⟨[⟨1, ("a"), ThumbnailSize.small, JobStatus.pending, 0, 0⟩],
        ⟨0, 0, 0, 0⟩⟩
      [RunEvent.queuedJobs 1, RunEvent.sentStats true,
       RunEvent.broadcastShutdown, RunEvent.joinedWorker 0,
       RunEvent.joinedWorker 1, RunEvent.joinedStatsUpdater]
      (by decide) rfl⟩

/-- Forget whether a stats snapshot was actually delivered — the only part
of an event the discarded send result could influence. -/
def eraseDelivered : RunEvent → RunEvent
  | RunEvent.sentStats _ => RunEvent.sentStats true
  | e => e

/-- C10: a `GetStats` message whose requester has already dropped its
response channel is handled by discarding the failed send (`let _ =
respond_to.send(stats)`): the loop result is identical to the one where the
snapshot was delivered — no error is returned and every subsequent message
is processed unchanged — the traces agree up to the delivery flag, and
handling the dropped-receiver `GetStats` is exactly continuing with the
remaining messages. -/
theorem getstats_dropped_receiver_ignored (now : Nat) (st : ProcState)
    (pre suf : List ThumbnailMessage) :
    mainLoop now st (pre ++ ThumbnailMessage.getStats false :: suf) =
      mainLoop now st (pre ++ ThumbnailMessage.getStats true :: suf) ∧
    List.map eraseDelivered
        (mainTrace now st (pre ++ ThumbnailMessage.getStats false :: suf)) =
      List.map eraseDelivered
        (mainTrace now st (pre ++ ThumbnailMessage.getStats true :: suf)) ∧
    mainLoop now st (ThumbnailMessage.getStats false :: suf) =
      mainLoop now st suf := by
  refine ⟨?_, ?_, by simp [mainLoop]⟩
  · induction pre generalizing st with
    | nil => simp [mainLoop]
    | cons m pre ih =>
      cases m with
      | queueFiles file_infos sizes =>
        cases hq : queue_files_for_processing st.job_queue file_infos sizes now with
        | error e => simp [mainLoop, hq]
        | ok p =>
          obtain ⟨q2, n⟩ := p
          simpa [mainLoop, hq] using ih { st with job_queue := q2 }
      | getStats alive => simpa [mainLoop] using ih st
      | shutdown => simp [mainLoop]
  · induction pre generalizing st with
    | nil => simp [mainTrace, eraseDelivered]
    | cons m pre ih =>
      cases m with
      | queueFiles file_infos sizes =>
        cases hq : queue_files_for_processing st.job_queue file_infos sizes now with
        | error e => simp [mainTrace, hq]
        | ok p =>
          obtain ⟨q2, n⟩ := p
          simpa [mainTrace, hq] using ih { st with job_queue := q2 }
      | getStats alive => simpa [mainTrace] using ih st
      | shutdown => simp [mainTrace]

end Hestia
